import Mathlib

/-!
Verification of the play-scraper crawl orchestration engine.

This file gives a shallow embedding of the two source variants of the
crawler, `src/google-scraper.py` (sequential, append-log persistence) and
`src/google_scraper.py` (thread-pool variant, full-set-rewrite persistence),
and proves or refutes the specification's claims about them.

The external collaborators (HTTP transport and page parsing, i.e. the
`PlayScraper` methods and `play_scraper.utils.multi_futures_app_request`)
are modelled as an environment of pure functions whose `Option` result
`none` stands for a raised exception.  Machine state is the in-memory
`stats` dictionary together with the durable per-set files and the detail
files; the state also carries observable traces of the external calls made
(similar-list fetches, detail fetches, detail-file writes).
-/

namespace Scraper

/-- The six keys of the `stats` dictionary, one per named durable set. -/
inductive StatKind
  | detailsChecked
  | developersNotChecked
  | developersChecked
  | similarsChecked
  | similarsNotChecked
  | categoriesChecked
deriving DecidableEq

/-- A detail record as the orchestrator sees it: the item id and the
developer id (possibly empty). -/
structure AppInfo where
  app_id : String
  developer_id : String
deriving DecidableEq

/-- Machine state: in-memory sets (`mem`), the durable per-set file
contents (`files`, one list of lines per set), plus observable traces:
`appWrites` logs every write of a detail file (by item id, in order),
`detailFetches` logs every id passed to the detail-fetch collaborator, and
`similarFetches` logs every id whose similar-list was requested. -/
structure St where
  mem : StatKind → List String
  files : StatKind → List String
  appWrites : List String
  detailFetches : List String
  similarFetches : List String

/-- The initial state: all sets empty, no files, no traces. -/
def mkSt : St :=
  { mem := fun _ => [], files := fun _ => [], appWrites := [],
    detailFetches := [], similarFetches := [] }

/-- The external collaborators.  `none` models a raised exception. -/
structure Env where
  details : String → Option AppInfo
  similar : String → Option (List AppInfo)
  categories : Option (List String)
  categoryItems : String → Option (List AppInfo)
  categoryClusters : String → Option (List String)
  clusterItems : String → Option (List AppInfo)
  developerApps : String → Option (List AppInfo)

/-- The state carried by an `Except St St` outcome, whether the
computation returned normally or raised. -/
def stateOf : Except St St → St
  | .ok s => s
  | .error s => s

/-- Whether an `Except St St` outcome is a raised exception. -/
def isError : Except St St → Bool
  | .ok _ => false
  | .error _ => true

/-- set_stat from google-scraper.py, successful-write path: no-op if the
id is already in the in-memory set; otherwise append the id to the set's
durable file and insert it into the in-memory set. -/
def set_stat (s : St) (kind : StatKind) (info : String) : St :=
  if info ∈ s.mem kind then s
  else
    { s with
      files := Function.update s.files kind (s.files kind ++ [info]),
      mem := Function.update s.mem kind (info :: s.mem kind) }

/-- set_stat from google-scraper.py with a fallible durable write
(`writeOk = false` models the `open`/`write` raising).  In this variant
the durable append happens before the in-memory insert, so on a failed
write the exception propagates with the state unchanged. -/
def set_stat_f (writeOk : Bool) (s : St) (kind : StatKind) (info : String) :
    Except St St :=
  if info ∈ s.mem kind then .ok s
  else if writeOk then .ok (set_stat s kind info)
  else .error s

/-- set_stat from google_scraper.py (threaded variant) with a fallible
durable write: the in-memory insert happens first, then the whole set is
rewritten to the file; on a failed write the exception propagates with the
id already inserted in memory. -/
def set_stat_t (writeOk : Bool) (s : St) (kind : StatKind) (info : String) :
    Except St St :=
  if info ∈ s.mem kind then .ok s
  else
    let m := Function.update s.mem kind (info :: s.mem kind)
    if writeOk then
      .ok { s with mem := m, files := Function.update s.files kind (m kind) }
    else .error { s with mem := m }

/-- set_stat from google_scraper.py, successful-write path: insert into
the in-memory set, then rewrite the set's durable file with the whole
updated set. -/
def set_stat_tOk (s : St) (kind : StatKind) (info : String) : St :=
  if info ∈ s.mem kind then s
  else
    let m := Function.update s.mem kind (info :: s.mem kind)
    { s with mem := m, files := Function.update s.files kind (m kind) }

/-- remove_stat from google_scraper.py: the body is only the early-return
guard, so it returns without modifying anything on either path. -/
def remove_stat (s : St) (kind : StatKind) (info : String) : St :=
  if info ∉ s.mem kind then s else s

/-- The direct `stats['similars-not-checked'].remove(app_id)` performed by
the threaded variant's get_similar_apps: it removes the id from the
in-memory set only and touches no durable file. -/
def similars_pending_remove (s : St) (app_id : String) : St :=
  { s with
    mem := Function.update s.mem StatKind.similarsNotChecked
      ((s.mem StatKind.similarsNotChecked).erase app_id) }

/-- Modelled from the spec: `play_scraper.utils.multi_futures_app_request`
is not under src/.  The spec describes `fetchDetails([ItemId])` as a
best-effort per-id batch fetch whose partial failures simply omit the
failed ids, and `PlayScraper.details` (src/play_scraper/scraper.py) stamps
each returned record's `app_id` with the requested id. -/
def multi_futures_app_request (env : Env) (ids : List String) : List AppInfo :=
  ids.filterMap fun i => (env.details i).map fun a => { a with app_id := i }

/-- set_new_app_stats (identical in both source files up to the `add`
operation used for persistence): record the id as details-checked, enqueue
it for similar expansion unless already similar-checked, and enqueue its
developer unless empty or already developer-checked. -/
def set_new_app_statsW (add : St → StatKind → String → St) (s : St)
    (app : AppInfo) : St :=
  let s1 := add s StatKind.detailsChecked app.app_id
  let s2 :=
    if app.app_id ∈ s1.mem StatKind.similarsChecked then s1
    else add s1 StatKind.similarsNotChecked app.app_id
  if app.developer_id ∉ s2.mem StatKind.developersChecked ∧
      app.developer_id ≠ "" then
    add s2 StatKind.developersNotChecked app.developer_id
  else s2

/-- save_app_details (both source files): write the detail record's file
(unconditionally, `open(..., 'w')`), then update the ledger. -/
def save_app_detailsW (add : St → StatKind → String → St) (s : St)
    (app : AppInfo) : St :=
  set_new_app_statsW add { s with appWrites := s.appWrites ++ [app.app_id] } app

/-- get_and_save_app_details (both source files): filter out ids already
details-checked, batch-fetch the rest, and save each returned record. -/
def get_and_save_app_detailsW (add : St → StatKind → String → St) (env : Env)
    (s : St) (app_ids : List String) : St :=
  let not_exists := app_ids.filter (· ∉ s.mem StatKind.detailsChecked)
  let s1 := { s with detailFetches := s.detailFetches ++ not_exists }
  (multi_futures_app_request env not_exists).foldl (save_app_detailsW add) s1

/-- get_and_save_similar (both source files): request the similar list
(the request itself is logged in `similarFetches`); any exception — from
the listing call or from anything inside the detail pipeline — is caught
and only logged; otherwise route the not-yet-known returned ids through
the detail pipeline. -/
def get_and_save_similarW (add : St → StatKind → String → St) (env : Env)
    (s : St) (app_id : String) : St :=
  let s1 := { s with similarFetches := s.similarFetches ++ [app_id] }
  match env.similar app_id with
  | none => s1
  | some similars =>
      get_and_save_app_detailsW add env s1
        ((similars.filter (fun i => i.app_id ∉ s1.mem StatKind.detailsChecked)).map
          (fun i => i.app_id))

/-- get_and_save_developer_apps (both source files): mark the developer
checked, fetch all of the developer's apps with full details (no filtering
against details-checked), and save every returned record; an exception
from the listing call propagates. -/
def get_and_save_developer_appsW (add : St → StatKind → String → St)
    (env : Env) (s : St) (developer_id : String) : Except St St :=
  let s1 := add s StatKind.developersChecked developer_id
  match env.developerApps developer_id with
  | none => .error s1
  | some apps => .ok (apps.foldl (save_app_detailsW add) s1)

/-- The body of the per-category cluster loop (both source files): list
the cluster's items and route them through the detail pipeline; a listing
exception propagates. -/
def cluster_stepW (add : St → StatKind → String → St) (env : Env) (su : St)
    (handle : String) : Except St St :=
  match env.clusterItems handle with
  | none => .error su
  | some citems =>
      .ok (get_and_save_app_detailsW add env su (citems.map (fun i => i.app_id)))

/-- The per-category body shared by google-scraper.py's get_categories_apps
loop and google_scraper.py's get_category_apps: list the category's items
and route them through the detail pipeline, list the clusters, route each
cluster's items through the detail pipeline, and only then mark the
category checked; any listing exception propagates. -/
def category_bodyW (add : St → StatKind → String → St) (env : Env) (s : St)
    (category : String) : Except St St :=
  match env.categoryItems category with
  | none => .error s
  | some items =>
      let s1 := get_and_save_app_detailsW add env s (items.map (fun i => i.app_id))
      match env.categoryClusters category with
      | none => .error s1
      | some clusters => do
          let s2 ← clusters.foldlM (cluster_stepW add env) s1
          Except.ok (add s2 StatKind.categoriesChecked category)

/-- Instantiations with the sequential variant's persistence. -/
def set_new_app_stats : St → AppInfo → St := set_new_app_statsW set_stat

/-- save_app_details of google-scraper.py. -/
def save_app_details : St → AppInfo → St := save_app_detailsW set_stat

/-- get_and_save_app_details of google-scraper.py. -/
def get_and_save_app_details : Env → St → List String → St :=
  get_and_save_app_detailsW set_stat

/-- get_and_save_similar of google-scraper.py. -/
def get_and_save_similar : Env → St → String → St :=
  get_and_save_similarW set_stat

/-- get_and_save_developer_apps of google-scraper.py. -/
def get_and_save_developer_apps : Env → St → String → Except St St :=
  get_and_save_developer_appsW set_stat

/-- The body of google-scraper.py's get_categories_apps loop for one
not-yet-checked category. -/
def process_category : Env → St → String → Except St St :=
  category_bodyW set_stat

/-- get_categories_apps of google-scraper.py: list the categories (an
exception propagates), then for each category not already checked run the
per-category body; any exception inside it propagates and aborts the
stage. -/
def get_categories_apps (env : Env) (s : St) : Except St St :=
  match env.categories with
  | none => .error s
  | some cats =>
      cats.foldlM
        (fun su category =>
          if category ∈ su.mem StatKind.categoriesChecked then Except.ok su
          else process_category env su category)
        s

/-- get_similar_apps of google-scraper.py: while the similar-pending set
is non-empty, pop an id (the pop itself removes it from the in-memory set
only); if it is not the empty string, run get_and_save_similar on it (which
catches its own exceptions) and then mark it similar-checked regardless of
whether the fetch succeeded.  The pop order of a Python set is arbitrary;
the model pops the head of the list.  `fuel` bounds the number of loop
iterations. -/
def get_similar_apps (env : Env) : Nat → St → St
  | 0, s => s
  | fuel + 1, s =>
      match s.mem StatKind.similarsNotChecked with
      | [] => s
      | app_id :: rest =>
          let s1 : St :=
            { s with mem := Function.update s.mem StatKind.similarsNotChecked rest }
          if app_id = "" then get_similar_apps env fuel s1
          else
            get_similar_apps env fuel
              (set_stat (get_and_save_similar env s1 app_id)
                StatKind.similarsChecked app_id)

/-- get_category_apps of google_scraper.py (threaded variant): skip if the
category is already checked, else run the per-category body with the
threaded persistence. -/
def get_category_apps (env : Env) (s : St) (category : String) :
    Except St St :=
  if category ∈ s.mem StatKind.categoriesChecked then .ok s
  else category_bodyW set_stat_tOk env s category

/-- One category of the threaded variant's completion loop: run the
get_category_apps task (its exception is swallowed by its future, since
`future.result()` is never read), then mark the category checked
unconditionally. -/
def mark_category_done (env : Env) (su : St) (category : String) : St :=
  set_stat_tOk (stateOf (get_category_apps env su category))
    StatKind.categoriesChecked category

/-- get_categories_apps of google_scraper.py (threaded variant): list the
categories (an exception propagates); submit get_category_apps for every
category to the pool and in the completion loop mark every category
checked.  The model runs the tasks in list order, one admissible schedule
of the pool. -/
def get_categories_apps_t (env : Env) (s : St) : Except St St :=
  match env.categories with
  | none => .error s
  | some cats => .ok (cats.foldl (mark_category_done env) s)

/-- get_similar_apps of google_scraper.py (threaded variant): while the
pending set is non-empty, snapshot it, run get_and_save_similar for every
id of the snapshot (task exceptions are caught inside), then in the
completion loop mark each id similar-checked and remove it from the
in-memory pending set.  The model runs the batch in list order. -/
def get_similar_apps_t (env : Env) : Nat → St → St
  | 0, s => s
  | fuel + 1, s =>
      match s.mem StatKind.similarsNotChecked with
      | [] => s
      | _ :: _ =>
          let batch := s.mem StatKind.similarsNotChecked
          let s1 := batch.foldl (fun su a => get_and_save_similarW set_stat_tOk env su a) s
          let s2 := batch.foldl
            (fun su a =>
              similars_pending_remove (set_stat_tOk su StatKind.similarsChecked a) a)
            s1
          get_similar_apps_t env fuel s2

/-- load_stats applied to one set's durable file: the file's text is split
on newline.  A file written by the sequential variant's set_stat holds one
id per line each followed by a newline, so the split yields the appended
ids plus one trailing empty string; a missing file leaves the set at its
initial empty value (the exception is caught and logged). -/
def load_file : Option (List String) → List String
  | none => []
  | some lines => lines ++ [""]

/-- load_stats of google-scraper.py: rebuild every in-memory set from its
durable file.  The `files` component mirrors the durable contents found on
disk (a missing file behaves as empty for later appends). -/
def load_stats (disk : StatKind → Option (List String)) : St :=
  { mem := fun k => load_file (disk k),
    files := fun k => (disk k).getD [],
    appWrites := [], detailFetches := [], similarFetches := [] }

/-- main of google-scraper.py: load the stats, run the category stage
(exceptions propagate and abort the run), then run the similar stage; the
developer stage is commented out. -/
def main (env : Env) (disk : StatKind → Option (List String)) (fuel : Nat) :
    Except St St := do
  let s ← get_categories_apps env (load_stats disk)
  Except.ok (get_similar_apps env fuel s)

/-! ### Abstract properties of add operations and concrete fixtures -/

/-- An add operation behaves like set insertion at the named set and leaves
every other set unchanged.  Both variants' successful-write set_stat
satisfy this. -/
def AddChar (add : St → StatKind → String → St) : Prop :=
  ∀ s k i k' x, x ∈ (add s k i).mem k' ↔ x ∈ s.mem k' ∨ (k' = k ∧ x = i)

/-- An add operation leaves the observable call traces unchanged.  Both
variants' successful-write set_stat satisfy this. -/
def AddTraces (add : St → StatKind → String → St) : Prop :=
  ∀ s k i, (add s k i).similarFetches = s.similarFetches
    ∧ (add s k i).detailFetches = s.detailFetches
    ∧ (add s k i).appWrites = s.appWrites

/-- An add operation never removes a line from a durable set file.  The
sequential variant's append-only set_stat satisfies this. -/
def FilesMono (add : St → StatKind → String → St) : Prop :=
  ∀ s k i k' x, x ∈ s.files k' → x ∈ (add s k i).files k'

/-- The key invariant for an id during the similar stage: it is
similar-checked and not similar-pending. -/
def SimInv (c : String) (s : St) : Prop :=
  c ∈ s.mem StatKind.similarsChecked ∧ c ∉ s.mem StatKind.similarsNotChecked

/-- An environment in which every collaborator call raises. -/
def noEnv : Env :=
  { details := fun _ => none, similar := fun _ => none, categories := none,
    categoryItems := fun _ => none, categoryClusters := fun _ => none,
    clusterItems := fun _ => none, developerApps := fun _ => none }

/-- An environment whose similar calls succeed with an empty list and
whose other calls raise. -/
def simEnv : Env := { noEnv with similar := fun _ => some [] }

/-- A durable state whose similar-pending file holds the single id a. -/
def disk1 : StatKind → Option (List String) :=
  fun k => if k = StatKind.similarsNotChecked then some ["a"] else none

/-- A durable state with similar-pending file {a, b} and similar-done
file {c}. -/
def disk2 : StatKind → Option (List String) := fun k =>
  if k = StatKind.similarsNotChecked then some ["a", "b"]
  else if k = StatKind.similarsChecked then some ["c"] else none

/-- An environment with one category GAME whose item listing succeeds
empty and whose cluster listing raises. -/
def env5 : Env :=
  { noEnv with categories := some ["GAME"], categoryItems := fun _ => some [] }

/-- An environment whose developer listing for d returns the already-known
app a, and whose other calls raise. -/
def env3 : Env :=
  { noEnv with
    developerApps := fun d => if d = "d" then some [⟨"a", "d"⟩] else none }

/-- An environment whose per-id detail fetch always succeeds. -/
def env9 : Env := { noEnv with details := fun i => some ⟨i, "d"⟩ }

/-- An environment whose category listing returns GAME but whose
per-category item listing raises. -/
def env7 : Env := { noEnv with categories := some ["GAME"] }

/-- A state in which app a has been fetched, written and recorded. -/
def s3cex : St := save_app_details mkSt ⟨"a", "d"⟩

/-- A state reached from empty by saving app a (with no developer id). -/
def s4a : St := save_app_details mkSt ⟨"a", ""⟩

/-- The state after the sequential similar stage processes a
successfully. -/
def s4b : St := get_similar_apps simEnv 2 s4a

/-- A state whose details-checked set holds a. -/
def s9 : St := set_stat mkSt StatKind.detailsChecked "a"

/-! ### Basic lemmas about the ledger operations -/

lemma addChar_set_stat : AddChar set_stat := by
  intro s k i k' x
  unfold set_stat
  split
  · rename_i hmem
    constructor
    · intro hx; exact Or.inl hx
    · rintro (hx | ⟨rfl, rfl⟩) <;> [exact hx; exact hmem]
  · rename_i hmem
    dsimp only
    by_cases hk : k' = k
    · subst hk
      rw [Function.update_same]
      simp only [List.mem_cons]
      tauto
    · rw [Function.update_noteq hk]
      tauto

lemma addTraces_set_stat : AddTraces set_stat := by
  intro s k i
  unfold set_stat
  split <;> exact ⟨rfl, rfl, rfl⟩

lemma addChar_set_stat_tOk : AddChar set_stat_tOk := by
  intro s k i k' x
  unfold set_stat_tOk
  split
  · rename_i hmem
    constructor
    · intro hx; exact Or.inl hx
    · rintro (hx | ⟨rfl, rfl⟩) <;> [exact hx; exact hmem]
  · rename_i hmem
    dsimp only
    by_cases hk : k' = k
    · subst hk
      rw [Function.update_same]
      simp only [List.mem_cons]
      tauto
    · rw [Function.update_noteq hk]
      tauto

lemma addTraces_set_stat_tOk : AddTraces set_stat_tOk := by
  intro s k i
  unfold set_stat_tOk
  split <;> exact ⟨rfl, rfl, rfl⟩

/-- set_stat leaves the other named sets unchanged, as lists. -/
lemma set_stat_mem_other {k' k : StatKind} (s : St) (i : String)
    (h : k' ≠ k) : (set_stat s k i).mem k' = s.mem k' := by
  unfold set_stat
  split
  · rfl
  · exact Function.update_noteq h _ s.mem

/-- set_stat leaves the durable files of the other named sets unchanged. -/
lemma set_stat_files_other {k' k : StatKind} (s : St) (i : String)
    (h : k' ≠ k) : (set_stat s k i).files k' = s.files k' := by
  unfold set_stat
  split
  · rfl
  · exact Function.update_noteq h _ s.files

/-- Membership after set_new_app_statsW, for any add operation that
behaves like set insertion: the id lands in details-checked, the id lands
in similar-pending exactly when it was not similar-checked, and the
developer id lands in developer-pending exactly when it is non-empty and
was not developer-checked. -/
lemma mem_snasW {add : St → StatKind → String → St} (hadd : AddChar add)
    (s : St) (app : AppInfo) (k : StatKind) (x : String) :
    x ∈ (set_new_app_statsW add s app).mem k ↔
      x ∈ s.mem k
      ∨ (k = StatKind.detailsChecked ∧ x = app.app_id)
      ∨ (k = StatKind.similarsNotChecked ∧ x = app.app_id
          ∧ app.app_id ∉ s.mem StatKind.similarsChecked)
      ∨ (k = StatKind.developersNotChecked ∧ x = app.developer_id
          ∧ app.developer_id ∉ s.mem StatKind.developersChecked
          ∧ app.developer_id ≠ "") := by
  simp only [set_new_app_statsW]
  by_cases h1 : app.app_id ∈
      (add s StatKind.detailsChecked app.app_id).mem StatKind.similarsChecked
  · rw [if_pos h1]
    rw [hadd] at h1
    simp only [reduceCtorEq, false_and, or_false] at h1
    by_cases h2 : app.developer_id ∉
        (add s StatKind.detailsChecked app.app_id).mem StatKind.developersChecked
        ∧ app.developer_id ≠ ""
    · rw [if_pos h2]
      obtain ⟨h2a, h2b⟩ := h2
      rw [hadd] at h2a
      simp only [reduceCtorEq, false_and, or_false] at h2a
      rw [hadd, hadd]
      constructor
      · rintro ((hx | ⟨rfl, rfl⟩) | ⟨rfl, rfl⟩) <;> tauto
      · rintro (hx | ⟨rfl, rfl⟩ | ⟨rfl, rfl, hno⟩ | ⟨rfl, rfl, hd1, hd2⟩)
        · tauto
        · tauto
        · exact absurd h1 hno
        · tauto
    · rw [if_neg h2]
      rw [hadd] at h2
      simp only [reduceCtorEq, false_and, or_false] at h2
      rw [hadd]
      constructor
      · rintro (hx | ⟨rfl, rfl⟩) <;> tauto
      · rintro (hx | ⟨rfl, rfl⟩ | ⟨rfl, rfl, hno⟩ | ⟨rfl, rfl, hd1, hd2⟩)
        · tauto
        · tauto
        · exact absurd h1 hno
        · exact absurd ⟨hd1, hd2⟩ h2
  · rw [if_neg h1]
    rw [hadd] at h1
    simp only [reduceCtorEq, false_and, or_false] at h1
    by_cases h2 : app.developer_id ∉
        (add (add s StatKind.detailsChecked app.app_id)
          StatKind.similarsNotChecked app.app_id).mem StatKind.developersChecked
        ∧ app.developer_id ≠ ""
    · rw [if_pos h2]
      obtain ⟨h2a, h2b⟩ := h2
      rw [hadd, hadd] at h2a
      simp only [reduceCtorEq, false_and, or_false] at h2a
      rw [hadd, hadd, hadd]
      constructor
      · rintro (((hx | ⟨rfl, rfl⟩) | ⟨rfl, rfl⟩) | ⟨rfl, rfl⟩) <;> tauto
      · rintro (hx | ⟨rfl, rfl⟩ | ⟨rfl, rfl, hno⟩ | ⟨rfl, rfl, hd1, hd2⟩) <;> tauto
    · rw [if_neg h2]
      rw [hadd, hadd] at h2
      simp only [reduceCtorEq, false_and, or_false] at h2
      rw [hadd, hadd]
      constructor
      · rintro ((hx | ⟨rfl, rfl⟩) | ⟨rfl, rfl⟩) <;> tauto
      · rintro (hx | ⟨rfl, rfl⟩ | ⟨rfl, rfl, hno⟩ | ⟨rfl, rfl, hd1, hd2⟩)
        · tauto
        · tauto
        · tauto
        · exact absurd ⟨hd1, hd2⟩ h2

/-! ### Trace and frame lemmas for the detail pipeline -/

lemma snasW_similarFetches {add : St → StatKind → String → St}
    (htr : AddTraces add) (s : St) (app : AppInfo) :
    (set_new_app_statsW add s app).similarFetches = s.similarFetches := by
  have h : ∀ su k i, (add su k i).similarFetches = su.similarFetches :=
    fun su k i => (htr su k i).1
  simp only [set_new_app_statsW]
  split_ifs <;> simp [h]

lemma snasW_detailFetches {add : St → StatKind → String → St}
    (htr : AddTraces add) (s : St) (app : AppInfo) :
    (set_new_app_statsW add s app).detailFetches = s.detailFetches := by
  have h : ∀ su k i, (add su k i).detailFetches = su.detailFetches :=
    fun su k i => (htr su k i).2.1
  simp only [set_new_app_statsW]
  split_ifs <;> simp [h]

lemma snasW_appWrites {add : St → StatKind → String → St}
    (htr : AddTraces add) (s : St) (app : AppInfo) :
    (set_new_app_statsW add s app).appWrites = s.appWrites := by
  have h : ∀ su k i, (add su k i).appWrites = su.appWrites :=
    fun su k i => (htr su k i).2.2
  simp only [set_new_app_statsW]
  split_ifs <;> simp [h]

lemma saveW_mem {add : St → StatKind → String → St} (hadd : AddChar add)
    (s : St) (app : AppInfo) (k : StatKind) (x : String) :
    x ∈ (save_app_detailsW add s app).mem k ↔
      x ∈ s.mem k
      ∨ (k = StatKind.detailsChecked ∧ x = app.app_id)
      ∨ (k = StatKind.similarsNotChecked ∧ x = app.app_id
          ∧ app.app_id ∉ s.mem StatKind.similarsChecked)
      ∨ (k = StatKind.developersNotChecked ∧ x = app.developer_id
          ∧ app.developer_id ∉ s.mem StatKind.developersChecked
          ∧ app.developer_id ≠ "") :=
  mem_snasW hadd { s with appWrites := s.appWrites ++ [app.app_id] } app k x

lemma saveW_similarFetches {add : St → StatKind → String → St}
    (htr : AddTraces add) (s : St) (app : AppInfo) :
    (save_app_detailsW add s app).similarFetches = s.similarFetches :=
  snasW_similarFetches htr _ app

lemma saveW_detailFetches {add : St → StatKind → String → St}
    (htr : AddTraces add) (s : St) (app : AppInfo) :
    (save_app_detailsW add s app).detailFetches = s.detailFetches :=
  snasW_detailFetches htr _ app

lemma saveW_appWrites {add : St → StatKind → String → St}
    (htr : AddTraces add) (s : St) (app : AppInfo) :
    (save_app_detailsW add s app).appWrites = s.appWrites ++ [app.app_id] :=
  snasW_appWrites htr _ app

lemma foldl_saveW_mem_frame {add : St → StatKind → String → St}
    (hadd : AddChar add) {k : StatKind} (hk1 : k ≠ StatKind.detailsChecked)
    (hk2 : k ≠ StatKind.similarsNotChecked)
    (hk3 : k ≠ StatKind.developersNotChecked) (x : String) :
    ∀ (apps : List AppInfo) (s : St),
      (x ∈ (apps.foldl (save_app_detailsW add) s).mem k ↔ x ∈ s.mem k) := by
  intro apps
  induction apps with
  | nil => intro s; exact Iff.rfl
  | cons app rest ih =>
      intro s
      rw [List.foldl_cons, ih, saveW_mem hadd]
      constructor
      · rintro (hx | ⟨hkk, _⟩ | ⟨hkk, _⟩ | ⟨hkk, _⟩)
        · exact hx
        · exact absurd hkk hk1
        · exact absurd hkk hk2
        · exact absurd hkk hk3
      · exact fun hx => Or.inl hx

lemma foldl_saveW_mem_mono {add : St → StatKind → String → St}
    (hadd : AddChar add) (k : StatKind) (x : String) :
    ∀ (apps : List AppInfo) (s : St),
      x ∈ s.mem k → x ∈ (apps.foldl (save_app_detailsW add) s).mem k := by
  intro apps
  induction apps with
  | nil => exact fun s hx => hx
  | cons app rest ih =>
      intro s hx
      rw [List.foldl_cons]
      exact ih _ ((saveW_mem hadd s app k x).mpr (Or.inl hx))

lemma foldl_saveW_simInv {add : St → StatKind → String → St}
    (hadd : AddChar add) (c : String) :
    ∀ (apps : List AppInfo) (s : St),
      SimInv c s → SimInv c (apps.foldl (save_app_detailsW add) s) := by
  intro apps
  induction apps with
  | nil => exact fun s h => h
  | cons app rest ih =>
      intro s h
      rw [List.foldl_cons]
      refine ih _ ⟨?_, ?_⟩
      · exact (saveW_mem hadd s app _ c).mpr (Or.inl h.1)
      · intro hc
        rcases (saveW_mem hadd s app _ c).mp hc with
          hx | ⟨hkk, _⟩ | ⟨_, rfl, hno⟩ | ⟨hkk, _⟩
        · exact h.2 hx
        · exact absurd hkk (by decide)
        · exact hno h.1
        · exact absurd hkk (by decide)

lemma foldl_saveW_similarFetches {add : St → StatKind → String → St}
    (htr : AddTraces add) :
    ∀ (apps : List AppInfo) (s : St),
      (apps.foldl (save_app_detailsW add) s).similarFetches = s.similarFetches := by
  intro apps
  induction apps with
  | nil => exact fun s => rfl
  | cons app rest ih =>
      intro s
      rw [List.foldl_cons, ih, saveW_similarFetches htr]

lemma foldl_saveW_detailFetches {add : St → StatKind → String → St}
    (htr : AddTraces add) :
    ∀ (apps : List AppInfo) (s : St),
      (apps.foldl (save_app_detailsW add) s).detailFetches = s.detailFetches := by
  intro apps
  induction apps with
  | nil => exact fun s => rfl
  | cons app rest ih =>
      intro s
      rw [List.foldl_cons, ih, saveW_detailFetches htr]

lemma foldl_saveW_appWrites {add : St → StatKind → String → St}
    (htr : AddTraces add) :
    ∀ (apps : List AppInfo) (s : St),
      (apps.foldl (save_app_detailsW add) s).appWrites
        = s.appWrites ++ apps.map (fun a => a.app_id) := by
  intro apps
  induction apps with
  | nil => intro s; simp
  | cons app rest ih =>
      intro s
      rw [List.foldl_cons, ih, saveW_appWrites htr]
      simp

/-- The detail pipeline on an empty candidate list is a no-op. -/
lemma gasadW_nil {add : St → StatKind → String → St} (env : Env) (s : St) :
    get_and_save_app_detailsW add env s [] = s := by
  simp [get_and_save_app_detailsW, multi_futures_app_request]

/-- The detail pipeline on candidates that are all already details-checked
is a no-op: nothing is fetched, nothing is written, nothing changes. -/
lemma gasadW_known {add : St → StatKind → String → St} (env : Env) (s : St)
    (ids : List String) (h : ∀ i ∈ ids, i ∈ s.mem StatKind.detailsChecked) :
    get_and_save_app_detailsW add env s ids = s := by
  have hf : ids.filter (· ∉ s.mem StatKind.detailsChecked) = [] :=
    List.filter_eq_nil_iff.mpr (by intro a ha; simpa using h a ha)
  unfold get_and_save_app_detailsW
  rw [hf]
  simp [multi_futures_app_request]

lemma gasadW_mem_frame {add : St → StatKind → String → St}
    (hadd : AddChar add) {k : StatKind} (hk1 : k ≠ StatKind.detailsChecked)
    (hk2 : k ≠ StatKind.similarsNotChecked)
    (hk3 : k ≠ StatKind.developersNotChecked) (env : Env) (s : St)
    (ids : List String) (x : String) :
    x ∈ (get_and_save_app_detailsW add env s ids).mem k ↔ x ∈ s.mem k :=
  foldl_saveW_mem_frame hadd hk1 hk2 hk3 x _ _

lemma gasadW_mem_mono {add : St → StatKind → String → St}
    (hadd : AddChar add) (env : Env) (s : St) (ids : List String)
    (k : StatKind) (x : String) (hx : x ∈ s.mem k) :
    x ∈ (get_and_save_app_detailsW add env s ids).mem k :=
  foldl_saveW_mem_mono hadd k x _ _ hx

lemma gasadW_simInv {add : St → StatKind → String → St}
    (hadd : AddChar add) (env : Env) (s : St) (ids : List String)
    (c : String) (h : SimInv c s) :
    SimInv c (get_and_save_app_detailsW add env s ids) :=
  foldl_saveW_simInv hadd c _ _ h

lemma gasadW_similarFetches {add : St → StatKind → String → St}
    (htr : AddTraces add) (env : Env) (s : St) (ids : List String) :
    (get_and_save_app_detailsW add env s ids).similarFetches
      = s.similarFetches :=
  foldl_saveW_similarFetches htr _ _

lemma gasadW_detailFetches {add : St → StatKind → String → St}
    (htr : AddTraces add) (env : Env) (s : St) (ids : List String) :
    (get_and_save_app_detailsW add env s ids).detailFetches
      = s.detailFetches ++ ids.filter (· ∉ s.mem StatKind.detailsChecked) :=
  foldl_saveW_detailFetches htr _ _

lemma gasadW_appWrites {add : St → StatKind → String → St}
    (htr : AddTraces add) (env : Env) (s : St) (ids : List String) :
    (get_and_save_app_detailsW add env s ids).appWrites
      = s.appWrites
        ++ (multi_futures_app_request env
              (ids.filter (· ∉ s.mem StatKind.detailsChecked))).map
            (fun a => a.app_id) :=
  foldl_saveW_appWrites htr _ _

/-- Every id the detail collaborator returns a record for was one of the
requested ids. -/
lemma mem_map_multi (env : Env) (ids : List String) (x : String)
    (hx : x ∈ (multi_futures_app_request env ids).map (fun a => a.app_id)) :
    x ∈ ids := by
  simp only [multi_futures_app_request, List.map_filterMap, List.mem_filterMap,
    Option.map_eq_some', Option.bind_eq_some] at hx
  obtain ⟨i, hi, a, ⟨b, hb, rfl⟩, rfl⟩ := hx
  exact hi

lemma gassW_similarFetches {add : St → StatKind → String → St}
    (htr : AddTraces add) (env : Env) (s : St) (a : String) :
    (get_and_save_similarW add env s a).similarFetches
      = s.similarFetches ++ [a] := by
  unfold get_and_save_similarW
  cases h : env.similar a with
  | none => rfl
  | some l => rw [gasadW_similarFetches htr]

lemma gassW_simInv {add : St → StatKind → String → St} (hadd : AddChar add)
    (env : Env) (s : St) (a : String) (c : String) (h : SimInv c s) :
    SimInv c (get_and_save_similarW add env s a) := by
  unfold get_and_save_similarW
  cases env.similar a with
  | none => exact h
  | some l => exact gasadW_simInv hadd env _ _ c h

lemma gassW_mem_frame {add : St → StatKind → String → St}
    (hadd : AddChar add) {k : StatKind} (hk1 : k ≠ StatKind.detailsChecked)
    (hk2 : k ≠ StatKind.similarsNotChecked)
    (hk3 : k ≠ StatKind.developersNotChecked) (env : Env) (s : St)
    (a : String) (x : String) :
    x ∈ (get_and_save_similarW add env s a).mem k ↔ x ∈ s.mem k := by
  unfold get_and_save_similarW
  cases env.similar a with
  | none => exact Iff.rfl
  | some l => exact gasadW_mem_frame hadd hk1 hk2 hk3 env _ _ x

lemma gassW_mem_mono {add : St → StatKind → String → St}
    (hadd : AddChar add) (env : Env) (s : St) (a : String) (k : StatKind)
    (x : String) (hx : x ∈ s.mem k) :
    x ∈ (get_and_save_similarW add env s a).mem k := by
  unfold get_and_save_similarW
  cases env.similar a with
  | none => exact hx
  | some l => exact gasadW_mem_mono hadd env _ _ k x hx

/-! ### Sequential-variant instances of the pipeline lemmas -/

lemma mem_snas (s : St) (app : AppInfo) (k : StatKind) (x : String) :
    x ∈ (set_new_app_stats s app).mem k ↔
      x ∈ s.mem k
      ∨ (k = StatKind.detailsChecked ∧ x = app.app_id)
      ∨ (k = StatKind.similarsNotChecked ∧ x = app.app_id
          ∧ app.app_id ∉ s.mem StatKind.similarsChecked)
      ∨ (k = StatKind.developersNotChecked ∧ x = app.developer_id
          ∧ app.developer_id ∉ s.mem StatKind.developersChecked
          ∧ app.developer_id ≠ "") :=
  mem_snasW addChar_set_stat s app k x

lemma gass_similarFetches (env : Env) (s : St) (a : String) :
    (get_and_save_similar env s a).similarFetches = s.similarFetches ++ [a] :=
  gassW_similarFetches addTraces_set_stat env s a

lemma gass_simInv (env : Env) (s : St) (a c : String) (h : SimInv c s) :
    SimInv c (get_and_save_similar env s a) :=
  gassW_simInv addChar_set_stat env s a c h

/-- If every id the similar call for `a` can return is already
details-checked, get_and_save_similar only logs the fetch of `a` and
changes nothing else. -/
lemma gass_no_new (env : Env) (s : St) (a : String)
    (h : ∀ l, env.similar a = some l →
      ∀ x ∈ l, x.app_id ∈ s.mem StatKind.detailsChecked) :
    get_and_save_similar env s a
      = { s with similarFetches := s.similarFetches ++ [a] } := by
  unfold get_and_save_similar get_and_save_similarW
  cases hl : env.similar a with
  | none => rfl
  | some l =>
      dsimp only
      apply gasadW_known
      intro i hi
      simp only [List.mem_map, List.mem_filter, decide_eq_true_eq] at hi
      obtain ⟨b, ⟨hbl, hbmem⟩, rfl⟩ := hi
      exact absurd (h l hl b hbl) hbmem

/-- One unfolding step of the sequential similar stage. -/
lemma run_succ (env : Env) (fuel : Nat) (s : St) :
    get_similar_apps env (fuel + 1) s =
      match s.mem StatKind.similarsNotChecked with
      | [] => s
      | app_id :: rest =>
          let s1 : St :=
            { s with mem := Function.update s.mem StatKind.similarsNotChecked rest }
          if app_id = "" then get_similar_apps env fuel s1
          else
            get_similar_apps env fuel
              (set_stat (get_and_save_similar env s1 app_id)
                StatKind.similarsChecked app_id) := rfl

/-- The sequential similar stage preserves the invariant that `c` is
similar-checked and not similar-pending, and never fetches the similar
list of such a `c`. -/
lemma run_simInv (env : Env) (c : String) :
    ∀ (fuel : Nat) (s : St), SimInv c s →
      SimInv c (get_similar_apps env fuel s)
      ∧ (c ∉ s.similarFetches →
          c ∉ (get_similar_apps env fuel s).similarFetches) := by
  intro fuel
  induction fuel with
  | zero => exact fun s h => ⟨h, fun hc => hc⟩
  | succ fuel ih =>
      intro s h
      rcases hp : s.mem StatKind.similarsNotChecked with _ | ⟨a, rest⟩
      · rw [run_succ, hp]
        exact ⟨h, fun hc => hc⟩
      · have hca : c ≠ a ∧ c ∉ rest := by
          have h2 := h.2
          rw [hp] at h2
          simp only [List.mem_cons, not_or] at h2
          exact h2
        rw [run_succ, hp]
        dsimp only
        have h1 : SimInv c
            { s with mem := Function.update s.mem StatKind.similarsNotChecked rest } := by
          constructor
          · show c ∈ (Function.update s.mem StatKind.similarsNotChecked rest)
              StatKind.similarsChecked
            rw [Function.update_noteq (by decide)]
            exact h.1
          · show c ∉ (Function.update s.mem StatKind.similarsNotChecked rest)
              StatKind.similarsNotChecked
            rw [Function.update_same]
            exact hca.2
        by_cases hae : a = ""
        · rw [if_pos hae]
          exact ih _ h1
        · rw [if_neg hae]
          have h2 := gass_simInv env _ a c h1
          have h3 : SimInv c
              (set_stat
                (get_and_save_similar env
                  { s with
                    mem := Function.update s.mem StatKind.similarsNotChecked rest } a)
                StatKind.similarsChecked a) := by
            constructor
            · exact (addChar_set_stat _ _ a _ c).mpr (Or.inl h2.1)
            · rw [set_stat_mem_other _ a (by decide)]
              exact h2.2
          refine ⟨(ih _ h3).1, fun hc => (ih _ h3).2 ?_⟩
          rw [(addTraces_set_stat _ _ a).1, gass_similarFetches]
          simp only [List.mem_append, List.mem_singleton, not_or]
          exact ⟨hc, hca.1⟩

/-- If the environment's similar lists only ever return ids that are in
`D`, and `D` is contained in details-checked, the sequential similar stage
with fuel equal to the frontier's size fetches exactly the non-empty ids
of the frontier, in order, and drains the frontier. -/
lemma run_no_new (env : Env) (D : List String)
    (hEnv : ∀ a l, env.similar a = some l → ∀ x ∈ l, x.app_id ∈ D) :
    ∀ (p : List String) (s : St),
      s.mem StatKind.similarsNotChecked = p →
      (∀ d ∈ D, d ∈ s.mem StatKind.detailsChecked) →
      (get_similar_apps env p.length s).similarFetches
          = s.similarFetches ++ p.filter (· ≠ "")
      ∧ (get_similar_apps env p.length s).mem StatKind.similarsNotChecked = [] := by
  intro p
  induction p with
  | nil =>
      intro s hp _
      constructor
      · show s.similarFetches = s.similarFetches ++ List.filter (· ≠ "") []
        simp
      · exact hp
  | cons a rest ih =>
      intro s hp hD
      rw [List.length_cons, run_succ, hp]
      dsimp only
      have hp1 : ({ s with
          mem := Function.update s.mem StatKind.similarsNotChecked rest } : St).mem
            StatKind.similarsNotChecked = rest := by
        show (Function.update s.mem StatKind.similarsNotChecked rest)
          StatKind.similarsNotChecked = rest
        exact Function.update_same _ _ _
      have hD1 : ∀ d ∈ D, d ∈ ({ s with
          mem := Function.update s.mem StatKind.similarsNotChecked rest } : St).mem
            StatKind.detailsChecked := by
        intro d hd
        show d ∈ (Function.update s.mem StatKind.similarsNotChecked rest)
          StatKind.detailsChecked
        rw [Function.update_noteq (by decide)]
        exact hD d hd
      by_cases hae : a = ""
      · rw [if_pos hae]
        obtain ⟨t1, t2⟩ := ih _ hp1 hD1
        refine ⟨?_, t2⟩
        rw [t1, hae]
        simp [List.filter_cons]
      · rw [if_neg hae]
        rw [gass_no_new env _ a (by
          intro l hl x hx
          exact hD1 _ (hEnv a l hl x hx))]
        have hp2 : (set_stat
            { s with
              mem := Function.update s.mem StatKind.similarsNotChecked rest,
              similarFetches := s.similarFetches ++ [a] }
            StatKind.similarsChecked a).mem StatKind.similarsNotChecked = rest := by
          rw [set_stat_mem_other _ a (by decide)]
          exact hp1
        have hD2 : ∀ d ∈ D, d ∈ (set_stat
            { s with
              mem := Function.update s.mem StatKind.similarsNotChecked rest,
              similarFetches := s.similarFetches ++ [a] }
            StatKind.similarsChecked a).mem StatKind.detailsChecked := by
          intro d hd
          rw [set_stat_mem_other _ a (by decide)]
          exact hD1 d hd
        obtain ⟨t1, t2⟩ := ih _ hp2 hD2
        refine ⟨?_, t2⟩
        rw [t1, (addTraces_set_stat _ _ a).1]
        show s.similarFetches ++ [a] ++ rest.filter (· ≠ "") = _
        rw [List.filter_cons]
        simp [hae]

/-! ### Monotonicity of the threaded category stage -/

lemma foldlM_cluster_mono {add : St → StatKind → String → St}
    (hadd : AddChar add) (env : Env) (k : StatKind) (x : String) :
    ∀ (clusters : List String) (s : St), x ∈ s.mem k →
      x ∈ (stateOf (clusters.foldlM (cluster_stepW add env) s)).mem k := by
  intro clusters
  induction clusters with
  | nil => exact fun s hx => hx
  | cons c cs ih =>
      intro s hx
      show x ∈ (stateOf (cluster_stepW add env s c >>=
        fun s' => cs.foldlM (cluster_stepW add env) s')).mem k
      cases hc : env.clusterItems c with
      | none =>
          have he : cluster_stepW add env s c = Except.error s := by
            unfold cluster_stepW; rw [hc]
          rw [he]
          exact hx
      | some citems =>
          have he : cluster_stepW add env s c
              = Except.ok (get_and_save_app_detailsW add env s
                  (citems.map (fun i => i.app_id))) := by
            unfold cluster_stepW; rw [hc]
          rw [he]
          exact ih _ (gasadW_mem_mono hadd env _ _ k x hx)

lemma category_bodyW_mem_mono {add : St → StatKind → String → St}
    (hadd : AddChar add) (env : Env) (s : St) (category : String)
    (k : StatKind) (x : String) (hx : x ∈ s.mem k) :
    x ∈ (stateOf (category_bodyW add env s category)).mem k := by
  unfold category_bodyW
  cases hi : env.categoryItems category with
  | none => exact hx
  | some items =>
      dsimp only
      cases hc : env.categoryClusters category with
      | none => exact gasadW_mem_mono hadd env _ _ k x hx
      | some clusters =>
          dsimp only
          have h1 := foldlM_cluster_mono hadd env k x clusters _
            (gasadW_mem_mono hadd env s (items.map (fun i => i.app_id)) k x hx)
          cases hf : clusters.foldlM (cluster_stepW add env)
              (get_and_save_app_detailsW add env s (items.map (fun i => i.app_id))) with
          | error e =>
              rw [hf] at h1
              exact h1
          | ok s2 =>
              rw [hf] at h1
              exact (hadd s2 _ category k x).mpr (Or.inl h1)

lemma get_category_apps_mem_mono (env : Env) (s : St) (category : String)
    (k : StatKind) (x : String) (hx : x ∈ s.mem k) :
    x ∈ (stateOf (get_category_apps env s category)).mem k := by
  unfold get_category_apps
  split
  · exact hx
  · exact category_bodyW_mem_mono addChar_set_stat_tOk env s category k x hx

lemma mark_category_done_mem_mono (env : Env) (su : St) (category : String)
    (k : StatKind) (x : String) (hx : x ∈ su.mem k) :
    x ∈ (mark_category_done env su category).mem k :=
  (addChar_set_stat_tOk _ _ category k x).mpr
    (Or.inl (get_category_apps_mem_mono env su category k x hx))

lemma mark_category_done_self (env : Env) (su : St) (category : String) :
    category ∈ (mark_category_done env su category).mem
      StatKind.categoriesChecked :=
  (addChar_set_stat_tOk _ _ category _ category).mpr (Or.inr ⟨rfl, rfl⟩)

lemma foldl_mark_mem_mono (env : Env) (k : StatKind) (x : String) :
    ∀ (cats : List String) (s : St), x ∈ s.mem k →
      x ∈ (cats.foldl (mark_category_done env) s).mem k := by
  intro cats
  induction cats with
  | nil => exact fun s hx => hx
  | cons a rest ih =>
      intro s hx
      rw [List.foldl_cons]
      exact ih _ (mark_category_done_mem_mono env s a k x hx)

lemma foldl_mark_all (env : Env) :
    ∀ (cats : List String) (s : St) (c : String), c ∈ cats →
      c ∈ (cats.foldl (mark_category_done env) s).mem
        StatKind.categoriesChecked := by
  intro cats
  induction cats with
  | nil => intro s c hc; cases hc
  | cons a rest ih =>
      intro s c hc
      rw [List.foldl_cons]
      rcases List.mem_cons.mp hc with rfl | hc'
      · exact foldl_mark_mem_mono env _ c rest _ (mark_category_done_self env s c)
      · exact ih _ c hc'

lemma gasad_known (env : Env) (s : St) (ids : List String)
    (h : ∀ i ∈ ids, i ∈ s.mem StatKind.detailsChecked) :
    get_and_save_app_details env s ids = s :=
  gasadW_known env s ids h

lemma gasad_detailFetches (env : Env) (s : St) (ids : List String) :
    (get_and_save_app_details env s ids).detailFetches
      = s.detailFetches ++ ids.filter (· ∉ s.mem StatKind.detailsChecked) :=
  gasadW_detailFetches addTraces_set_stat env s ids

lemma gasad_appWrites (env : Env) (s : St) (ids : List String) :
    (get_and_save_app_details env s ids).appWrites
      = s.appWrites
        ++ (multi_futures_app_request env
              (ids.filter (· ∉ s.mem StatKind.detailsChecked))).map
            (fun a => a.app_id) :=
  gasadW_appWrites addTraces_set_stat env s ids

/-- After a successful detail fetch of a single id, the id is
details-checked. -/
lemma gasad_single_mem (env : Env) (s : St) (id : String) (app : AppInfo)
    (h : env.details id = some app) :
    id ∈ (get_and_save_app_details env s [id]).mem StatKind.detailsChecked := by
  by_cases hid : id ∈ s.mem StatKind.detailsChecked
  · rw [gasad_known env s [id] (by
      intro i hi
      rw [List.mem_singleton] at hi
      subst hi
      exact hid)]
    exact hid
  · unfold get_and_save_app_details get_and_save_app_detailsW
    dsimp only
    have hf : [id].filter (· ∉ s.mem StatKind.detailsChecked) = [id] := by
      simp [hid]
    rw [hf]
    have hm : multi_futures_app_request env [id] = [{ app with app_id := id }] := by
      simp [multi_futures_app_request, h]
    rw [hm]
    exact (saveW_mem addChar_set_stat _ _ _ _).mpr (Or.inr (Or.inl ⟨rfl, rfl⟩))

/-! ### Durable files only grow in the sequential variant -/

lemma filesMono_set_stat : FilesMono set_stat := by
  intro s k i k' x hx
  unfold set_stat
  split
  · exact hx
  · dsimp only
    by_cases hk : k' = k
    · subst hk
      rw [Function.update_same]
      exact List.mem_append_left _ hx
    · rw [Function.update_noteq hk]
      exact hx

lemma snasW_files_mono {add : St → StatKind → String → St}
    (hadd : FilesMono add) (s : St) (app : AppInfo) (k : StatKind)
    (x : String) (hx : x ∈ s.files k) :
    x ∈ (set_new_app_statsW add s app).files k := by
  simp only [set_new_app_statsW]
  split_ifs <;>
    first
      | exact hadd _ _ _ _ _ (hadd _ _ _ _ _ (hadd _ _ _ _ _ hx))
      | exact hadd _ _ _ _ _ (hadd _ _ _ _ _ hx)
      | exact hadd _ _ _ _ _ hx

lemma saveW_files_mono {add : St → StatKind → String → St}
    (hadd : FilesMono add) (s : St) (app : AppInfo) (k : StatKind)
    (x : String) (hx : x ∈ s.files k) :
    x ∈ (save_app_detailsW add s app).files k :=
  snasW_files_mono hadd _ app k x hx

lemma foldl_saveW_files_mono {add : St → StatKind → String → St}
    (hadd : FilesMono add) (k : StatKind) (x : String) :
    ∀ (apps : List AppInfo) (s : St), x ∈ s.files k →
      x ∈ (apps.foldl (save_app_detailsW add) s).files k := by
  intro apps
  induction apps with
  | nil => exact fun s hx => hx
  | cons app rest ih =>
      intro s hx
      rw [List.foldl_cons]
      exact ih _ (saveW_files_mono hadd s app k x hx)

lemma gasadW_files_mono {add : St → StatKind → String → St}
    (hadd : FilesMono add) (env : Env) (s : St) (ids : List String)
    (k : StatKind) (x : String) (hx : x ∈ s.files k) :
    x ∈ (get_and_save_app_detailsW add env s ids).files k :=
  foldl_saveW_files_mono hadd k x _ _ hx

lemma gassW_files_mono {add : St → StatKind → String → St}
    (hadd : FilesMono add) (env : Env) (s : St) (a : String) (k : StatKind)
    (x : String) (hx : x ∈ s.files k) :
    x ∈ (get_and_save_similarW add env s a).files k := by
  unfold get_and_save_similarW
  cases env.similar a with
  | none => exact hx
  | some l => exact gasadW_files_mono hadd env _ _ k x hx

/-- The sequential similar stage never removes a line from any durable
set file; in particular the similar-pending file keeps every id it held,
since the pop touches only the in-memory set. -/
lemma run_files_mono (env : Env) :
    ∀ (fuel : Nat) (s : St) (k : StatKind) (x : String), x ∈ s.files k →
      x ∈ (get_similar_apps env fuel s).files k := by
  intro fuel
  induction fuel with
  | zero => exact fun s k x hx => hx
  | succ fuel ih =>
      intro s k x hx
      rcases hp : s.mem StatKind.similarsNotChecked with _ | ⟨a, rest⟩
      · rw [run_succ, hp]
        exact hx
      · rw [run_succ, hp]
        dsimp only
        by_cases hae : a = ""
        · rw [if_pos hae]
          exact ih _ k x hx
        · rw [if_neg hae]
          exact ih _ k x
            (filesMono_set_stat _ _ a k x
              (gassW_files_mono filesMono_set_stat env _ a k x hx))

/-! ### Claim C1 -/

/-- C1 (amended): in the similar-apps stage an exception fetching one id's
similar-list is caught and logged and the stage continues, but contrary to
the claim the failed id is added to the similar-done set and is removed
from the in-memory similar-pending set, so it is not retried within the
same run; the durable similar-pending file, which the pop never touches,
still holds the id, so a restarted run loads it as pending again. -/
theorem similar_fetch_failure_still_marked_done (env : Env) (fuel : Nat)
    (s : St) (a : String) (rest : List String)
    (hp : s.mem StatKind.similarsNotChecked = a :: rest)
    (ha : a ≠ "") (hnd : a ∉ rest) (hfail : env.similar a = none)
    (hfile : a ∈ s.files StatKind.similarsNotChecked) :
    a ∈ (get_similar_apps env (fuel + 1) s).mem StatKind.similarsChecked
    ∧ a ∉ (get_similar_apps env (fuel + 1) s).mem StatKind.similarsNotChecked
    ∧ a ∈ (get_similar_apps env (fuel + 1) s).files
        StatKind.similarsNotChecked := by
  have h12 : a ∈ (get_similar_apps env (fuel + 1) s).mem
        StatKind.similarsChecked
      ∧ a ∉ (get_similar_apps env (fuel + 1) s).mem
        StatKind.similarsNotChecked := by
    rw [run_succ, hp]
    dsimp only
    rw [if_neg ha]
    have hg : get_and_save_similar env
        { s with mem := Function.update s.mem StatKind.similarsNotChecked rest } a
        = { s with
            mem := Function.update s.mem StatKind.similarsNotChecked rest,
            similarFetches := s.similarFetches ++ [a] } := by
      unfold get_and_save_similar get_and_save_similarW
      rw [hfail]
    rw [hg]
    have h3 : SimInv a (set_stat
        { s with
          mem := Function.update s.mem StatKind.similarsNotChecked rest,
          similarFetches := s.similarFetches ++ [a] }
        StatKind.similarsChecked a) := by
      constructor
      · exact (addChar_set_stat _ _ a _ a).mpr (Or.inr ⟨rfl, rfl⟩)
      · rw [set_stat_mem_other _ a (by decide)]
        show a ∉ (Function.update s.mem StatKind.similarsNotChecked rest)
          StatKind.similarsNotChecked
        rw [Function.update_same]
        exact hnd
    exact (run_simInv env a fuel _ h3).1
  exact ⟨h12.1, h12.2,
    run_files_mono env (fuel + 1) s StatKind.similarsNotChecked a hfile⟩

/-- C1 witness: the amended theorem applied to the concrete reloaded state
with the single pending id a whose similar fetch raises. -/
theorem similar_fetch_failure_still_marked_done_witness :
    ((load_stats disk1).mem StatKind.similarsNotChecked = "a" :: [""]
      ∧ "a" ≠ "" ∧ "a" ∉ [""] ∧ noEnv.similar "a" = none
      ∧ "a" ∈ (load_stats disk1).files StatKind.similarsNotChecked)
    ∧ ("a" ∈ (get_similar_apps noEnv (2 + 1) (load_stats disk1)).mem
          StatKind.similarsChecked
      ∧ "a" ∉ (get_similar_apps noEnv (2 + 1) (load_stats disk1)).mem
          StatKind.similarsNotChecked
      ∧ "a" ∈ (get_similar_apps noEnv (2 + 1) (load_stats disk1)).files
          StatKind.similarsNotChecked) :=
  ⟨⟨by decide, by decide, by decide, rfl, by decide⟩,
    similar_fetch_failure_still_marked_done noEnv 2 (load_stats disk1) "a" [""]
      (by decide) (by decide) (by decide) rfl (by decide)⟩

/-- C1 counterexample: with the single pending id a whose similar fetch
raises, after the sequential similar stage the id is in the similar-done
set and absent from the in-memory similar-pending set, contradicting the
claim that it is not added to done and remains pending; moreover the
durable pending file still holds the id, and a second run started from the
resulting durable files fetches its similar list again. -/
theorem similar_fetch_failure_cex :
    noEnv.similar "a" = none
    ∧ "a" ∈ (get_similar_apps noEnv 3 (load_stats disk1)).mem
        StatKind.similarsChecked
    ∧ "a" ∉ (get_similar_apps noEnv 3 (load_stats disk1)).mem
        StatKind.similarsNotChecked
    ∧ "a" ∈ (get_similar_apps noEnv 3 (load_stats disk1)).files
        StatKind.similarsNotChecked
    ∧ "a" ∈ (get_similar_apps noEnv 3 (load_stats
        (fun k => some ((get_similar_apps noEnv 3 (load_stats disk1)).files
          k)))).similarFetches :=
  ⟨rfl, by decide, by decide, by decide, by decide⟩

/-! ### Claim C2 -/

/-- C2: restarting from a durable ledger state whose similar-pending file
holds {A, B} and whose similar-done file holds {C}, the reloaded similar
stage never fetches C's similar list (under any environment and any
fuel), and when the environment's similar lists return only
already-known ids it fetches exactly A and B and drains the frontier. -/
theorem similar_stage_resumes_pending_only (A B C : String)
    (disk : StatKind → Option (List String)) (env : Env)
    (hp : disk StatKind.similarsNotChecked = some [A, B])
    (hd : disk StatKind.similarsChecked = some [C])
    (hA : A ≠ "") (hB : B ≠ "") (hCA : C ≠ A) (hCB : C ≠ B) (hC : C ≠ "")
    (hEnv : ∀ a l, env.similar a = some l →
      ∀ x ∈ l, x.app_id ∈ (load_stats disk).mem StatKind.detailsChecked) :
    (∀ (env' : Env) (fuel : Nat),
        C ∉ (get_similar_apps env' fuel (load_stats disk)).similarFetches)
    ∧ (get_similar_apps env 3 (load_stats disk)).similarFetches = [A, B]
    ∧ (get_similar_apps env 3 (load_stats disk)).mem
        StatKind.similarsNotChecked = [] := by
  have hpend : (load_stats disk).mem StatKind.similarsNotChecked
      = [A, B, ""] := by
    show load_file (disk StatKind.similarsNotChecked) = _
    rw [hp]
    rfl
  have hrun := run_no_new env ((load_stats disk).mem StatKind.detailsChecked)
    (fun a l hl x hx => hEnv a l hl x hx) [A, B, ""] (load_stats disk)
    hpend (fun d hdm => hdm)
  have hlen : get_similar_apps env 3 (load_stats disk)
      = get_similar_apps env ([A, B, ""].length) (load_stats disk) := rfl
  refine ⟨?_, ?_, ?_⟩
  · intro env' fuel
    have hinv : SimInv C (load_stats disk) := by
      constructor
      · show C ∈ load_file (disk StatKind.similarsChecked)
        rw [hd]
        exact List.mem_cons_self _ _
      · rw [hpend]
        simp [hCA, hCB, hC]
    exact (run_simInv env' C fuel _ hinv).2 (List.not_mem_nil C)
  · rw [hlen, hrun.1]
    show ([] : List String) ++ [A, B, ""].filter (· ≠ "") = [A, B]
    simp [List.filter_cons, hA, hB]
  · rw [hlen]
    exact hrun.2

/-- C2 witness: the theorem applied to the concrete durable state with
pending {a, b}, done {c}, and an environment whose similar lists are
empty. -/
theorem similar_stage_resumes_pending_only_witness :
    ("c" ∉ (get_similar_apps noEnv 5 (load_stats disk2)).similarFetches)
    ∧ (get_similar_apps simEnv 3 (load_stats disk2)).similarFetches = ["a", "b"]
    ∧ (get_similar_apps simEnv 3 (load_stats disk2)).mem
        StatKind.similarsNotChecked = [] := by
  have h := similar_stage_resumes_pending_only "a" "b" "c" disk2 simEnv rfl rfl
    (by decide) (by decide) (by decide) (by decide) (by decide)
    (by
      intro a l hl x hx
      have hl' : some ([] : List AppInfo) = some l := hl
      have hle : ([] : List AppInfo) = l := Option.some.inj hl'
      subst hle
      exact absurd hx (List.not_mem_nil x))
  exact ⟨h.1 noEnv 5, h.2.1, h.2.2⟩

/-! ### Claim C3 -/

/-- C3 (amended): once an id is in details-known, the detail-fetch
pipeline (used by the category, cluster and similar stages) filters it
out: it is never passed to the detail-fetch collaborator again and its
detail file is never written again; but the developer stage
(get_and_save_developer_apps) saves every record the developer listing
returns without consulting details-known, overwriting the pre-existing
detail file of an already-known id. -/
theorem details_known_never_refetched_by_pipeline (env : Env) (s : St)
    (ids : List String) (id : String)
    (h : id ∈ s.mem StatKind.detailsChecked) :
    (get_and_save_app_details env s ids).detailFetches
        = s.detailFetches ++ ids.filter (· ∉ s.mem StatKind.detailsChecked)
    ∧ id ∉ ids.filter (· ∉ s.mem StatKind.detailsChecked)
    ∧ ((get_and_save_app_details env s ids).appWrites).count id
        = s.appWrites.count id := by
  refine ⟨gasad_detailFetches env s ids, ?_, ?_⟩
  · simp only [List.mem_filter, decide_eq_true_eq]
    rintro ⟨-, hno⟩
    exact hno h
  · rw [gasad_appWrites, List.count_append]
    have hz : ((multi_futures_app_request env
        (ids.filter (· ∉ s.mem StatKind.detailsChecked))).map
          (fun a => a.app_id)).count id = 0 := by
      rw [List.count_eq_zero]
      intro hmem
      have hmem2 := mem_map_multi env _ id hmem
      simp only [List.mem_filter, decide_eq_true_eq] at hmem2
      exact hmem2.2 h
    rw [hz, Nat.add_zero]

/-- C3 witness: the amended theorem applied to a state that already knows
app a, with a as the candidate list. -/
theorem details_known_never_refetched_by_pipeline_witness :
    ("a" ∈ s3cex.mem StatKind.detailsChecked)
    ∧ ((get_and_save_app_details noEnv s3cex ["a"]).detailFetches
        = s3cex.detailFetches
          ++ ["a"].filter (· ∉ s3cex.mem StatKind.detailsChecked)
      ∧ "a" ∉ ["a"].filter (· ∉ s3cex.mem StatKind.detailsChecked)
      ∧ ((get_and_save_app_details noEnv s3cex ["a"]).appWrites).count "a"
          = s3cex.appWrites.count "a") :=
  ⟨by decide,
    details_known_never_refetched_by_pipeline noEnv s3cex ["a"] "a" (by decide)⟩

/-- C3 counterexample: app a is details-known and its detail file exists
(one write); the developer stage for its developer d re-fetches the detail
and writes the file a second time, so the pre-existing detail record of a
details-known id is overwritten, contradicting the claim. -/
theorem developer_stage_overwrites_known_detail_cex :
    "a" ∈ s3cex.mem StatKind.detailsChecked
    ∧ s3cex.appWrites = ["a"]
    ∧ (stateOf (get_and_save_developer_apps env3 s3cex "d")).appWrites
        = ["a", "a"] :=
  ⟨by decide, by decide, by decide⟩

/-! ### Claim C4 -/

/-- C4 (amended): the in-memory enqueue step preserves the disjointness of
pending and done for both the similar and the developer relation kinds;
but the claim fails for the state reconstructed by load() after a restart,
because processing an id removes it from the pending set only in memory
while the durable pending file keeps it, so after a reload pending and
done can intersect. -/
theorem enqueue_preserves_pending_done_disjointness (s : St) (app : AppInfo)
    (h1 : ∀ x ∈ s.mem StatKind.similarsNotChecked,
        x ∉ s.mem StatKind.similarsChecked)
    (h2 : ∀ x ∈ s.mem StatKind.developersNotChecked,
        x ∉ s.mem StatKind.developersChecked) :
    (∀ x ∈ (set_new_app_stats s app).mem StatKind.similarsNotChecked,
        x ∉ (set_new_app_stats s app).mem StatKind.similarsChecked)
    ∧ (∀ x ∈ (set_new_app_stats s app).mem StatKind.developersNotChecked,
        x ∉ (set_new_app_stats s app).mem StatKind.developersChecked) := by
  have hsim : ∀ x, x ∈ (set_new_app_stats s app).mem StatKind.similarsChecked
      ↔ x ∈ s.mem StatKind.similarsChecked := by
    intro x
    rw [mem_snas]
    simp
  have hdev : ∀ x, x ∈ (set_new_app_stats s app).mem StatKind.developersChecked
      ↔ x ∈ s.mem StatKind.developersChecked := by
    intro x
    rw [mem_snas]
    simp
  constructor
  · intro x hx hx'
    rw [hsim] at hx'
    rw [mem_snas] at hx
    rcases hx with hx | ⟨hk, _⟩ | ⟨_, rfl, hno⟩ | ⟨hk, _⟩
    · exact h1 x hx hx'
    · exact absurd hk (by decide)
    · exact hno hx'
    · exact absurd hk (by decide)
  · intro x hx hx'
    rw [hdev] at hx'
    rw [mem_snas] at hx
    rcases hx with hx | ⟨hk, _⟩ | ⟨hk, _⟩ | ⟨_, rfl, hno, _⟩
    · exact h2 x hx hx'
    · exact absurd hk (by decide)
    · exact absurd hk (by decide)
    · exact hno hx'

/-- C4 witness: the amended theorem applied to the empty state and a
concrete record. -/
theorem enqueue_preserves_pending_done_disjointness_witness :
    (∀ x ∈ (set_new_app_stats mkSt ⟨"a", "d"⟩).mem StatKind.similarsNotChecked,
        x ∉ (set_new_app_stats mkSt ⟨"a", "d"⟩).mem StatKind.similarsChecked)
    ∧ (∀ x ∈ (set_new_app_stats mkSt ⟨"a", "d"⟩).mem
          StatKind.developersNotChecked,
        x ∉ (set_new_app_stats mkSt ⟨"a", "d"⟩).mem
          StatKind.developersChecked) :=
  enqueue_preserves_pending_done_disjointness mkSt ⟨"a", "d"⟩
    (fun x hx => absurd hx (List.not_mem_nil x))
    (fun x hx => absurd hx (List.not_mem_nil x))

/-- C4 counterexample: starting empty, app a is saved (enqueuing it into
the pending set and its durable file) and then processed by the similar
stage (which marks it done durably but removes it from pending only in
memory); reloading the resulting durable files yields a state in which a
is in both the similar-pending and the similar-done set. -/
theorem pending_done_intersect_after_reload_cex :
    "a" ∈ (load_stats (fun k => some (s4b.files k))).mem
        StatKind.similarsNotChecked
    ∧ "a" ∈ (load_stats (fun k => some (s4b.files k))).mem
        StatKind.similarsChecked :=
  ⟨by decide, by decide⟩

/-! ### Claim C5 -/

/-- C5 (amended): in the sequential variant a category is marked done only
after all of its clusters' item ids have been routed, and an exception
while processing the category (item or cluster listing) propagates before
the marking, leaving the category outside categories-done so it is retried
on the next run; in the threaded variant, however, the completion loop
marks a category done even when its task raised. -/
theorem category_failure_unmarked_sequential (env : Env) (s : St)
    (category : String)
    (hnew : category ∉ s.mem StatKind.categoriesChecked)
    (hfail : env.categoryClusters category = none) :
    ∃ s', process_category env s category = Except.error s'
      ∧ category ∉ s'.mem StatKind.categoriesChecked := by
  unfold process_category category_bodyW
  cases hi : env.categoryItems category with
  | none => exact ⟨s, rfl, hnew⟩
  | some items =>
      dsimp only
      rw [hfail]
      refine ⟨_, rfl, ?_⟩
      rw [gasadW_mem_frame addChar_set_stat (by decide) (by decide) (by decide)]
      exact hnew

/-- C5 witness: the amended theorem applied to the concrete category GAME
whose cluster listing raises. -/
theorem category_failure_unmarked_sequential_witness :
    ("GAME" ∉ mkSt.mem StatKind.categoriesChecked
      ∧ env5.categoryClusters "GAME" = none)
    ∧ ∃ s', process_category env5 mkSt "GAME" = Except.error s'
      ∧ "GAME" ∉ s'.mem StatKind.categoriesChecked :=
  ⟨⟨by decide, rfl⟩,
    category_failure_unmarked_sequential env5 mkSt "GAME" (by decide) rfl⟩

/-- C5 counterexample: in the threaded variant the per-category task for
GAME raises (its cluster listing fails), yet after the stage GAME is in
the categories-done set, contradicting the claim that a failed category is
not marked done. -/
theorem threaded_marks_failed_category_cex :
    isError (get_category_apps env5 mkSt "GAME") = true
    ∧ "GAME" ∈ (stateOf (get_categories_apps_t env5 mkSt)).mem
        StatKind.categoriesChecked :=
  ⟨by decide, by decide⟩

/-! ### Claim C6 -/

/-- C6 (amended): in the append-log variant (google-scraper.py) the
durable append precedes the in-memory insert, so when the durable write
raises the call fails with the in-memory state unchanged, as the claim
says; in the rewrite variant (google_scraper.py) the in-memory insert
precedes the durable write, so when the write raises the call fails but
the id is already in the in-memory set and is not rolled back. -/
theorem add_write_failure_rolls_back_sequential (s : St) (k : StatKind)
    (i : String) (h : i ∉ s.mem k) :
    set_stat_f false s k i = Except.error s := by
  unfold set_stat_f
  rw [if_neg h]
  rfl

/-- C6 witness: the amended theorem applied at a fresh id and the empty
state. -/
theorem add_write_failure_rolls_back_sequential_witness :
    ("a" ∉ mkSt.mem StatKind.detailsChecked)
    ∧ set_stat_f false mkSt StatKind.detailsChecked "a" = Except.error mkSt :=
  ⟨by decide,
    add_write_failure_rolls_back_sequential mkSt StatKind.detailsChecked "a"
      (by decide)⟩

/-- C6 counterexample: in the threaded variant's set_stat a failed durable
write raises, yet the id is already inserted in the in-memory set of the
error state, so the in-memory set is not rolled back, contradicting the
claim. -/
theorem add_write_failure_keeps_memory_threaded_cex :
    isError (set_stat_t false mkSt StatKind.detailsChecked "a") = true
    ∧ "a" ∈ (stateOf (set_stat_t false mkSt StatKind.detailsChecked "a")).mem
        StatKind.detailsChecked :=
  ⟨by decide, by decide⟩

/-! ### Claim C7 -/

/-- C7 (amended): no single per-category task error aborts the run — in
the threaded variant the category stage returns normally whenever the
top-level category listing succeeds, and every listed category is still
processed and marked done even if its task raises; but an error in the
top-level category listing itself aborts the run in both variants, and in
the sequential variant an error while processing a category (for example
its item listing) also aborts the run. -/
theorem threaded_category_stage_isolates_task_failures (env : Env) (s : St)
    (cats : List String) (h : env.categories = some cats) :
    isError (get_categories_apps_t env s) = false
    ∧ ∀ c ∈ cats, c ∈ (stateOf (get_categories_apps_t env s)).mem
        StatKind.categoriesChecked := by
  unfold get_categories_apps_t
  rw [h]
  exact ⟨rfl, fun c hc => foldl_mark_all env cats s c hc⟩

/-- C7 witness: the amended theorem applied to the environment with the
single category GAME whose task raises. -/
theorem threaded_category_stage_isolates_task_failures_witness :
    env5.categories = some ["GAME"]
    ∧ isError (get_categories_apps_t env5 mkSt) = false
    ∧ ∀ c ∈ ["GAME"], c ∈ (stateOf (get_categories_apps_t env5 mkSt)).mem
        StatKind.categoriesChecked :=
  ⟨rfl,
    (threaded_category_stage_isolates_task_failures env5 mkSt ["GAME"] rfl).1,
    (threaded_category_stage_isolates_task_failures env5 mkSt ["GAME"] rfl).2⟩

/-- C7 counterexample: when the top-level category listing raises, the
sequential variant's main propagates the exception and the whole run
aborts, and the threaded category stage raises as well; in the sequential
variant an error while processing the category GAME (its item listing
raises) likewise propagates out of main — all contradicting the claim
that no error aborts the run. -/
theorem category_listing_failure_aborts_run_cex :
    isError (main noEnv (fun _ => none) 1) = true
    ∧ isError (get_categories_apps_t noEnv mkSt) = true
    ∧ isError (main env7 (fun _ => none) 1) = true :=
  ⟨by decide, by decide, by decide⟩

/-! ### Claim C8 -/

/-- C8: for every record completing the detail pipeline,
set_new_app_stats puts its item id into details-known, puts the item id
into similar-pending exactly when it is absent from similar-done (or was
already pending), and puts the record's developer id into
developers-pending exactly when it is non-empty and absent from
developers-done (or was already pending). -/
theorem detail_record_ledger_update (s : St) (app : AppInfo) :
    app.app_id ∈ (set_new_app_stats s app).mem StatKind.detailsChecked
    ∧ (app.app_id ∈ (set_new_app_stats s app).mem StatKind.similarsNotChecked
        ↔ app.app_id ∈ s.mem StatKind.similarsNotChecked
          ∨ app.app_id ∉ s.mem StatKind.similarsChecked)
    ∧ (app.developer_id ∈
          (set_new_app_stats s app).mem StatKind.developersNotChecked
        ↔ app.developer_id ∈ s.mem StatKind.developersNotChecked
          ∨ (app.developer_id ≠ ""
              ∧ app.developer_id ∉ s.mem StatKind.developersChecked)) := by
  refine ⟨?_, ?_, ?_⟩
  · exact (mem_snas s app _ _).mpr (Or.inr (Or.inl ⟨rfl, rfl⟩))
  · rw [mem_snas]
    simp
  · rw [mem_snas]
    simp
    tauto

/-! ### Claim C9 -/

/-- C9: the ledger add is idempotent in both variants — when the id is
already a member the call returns at once, changing neither the in-memory
sets nor the durable files — and running the detail pipeline a second time
on an id after a successful first run changes nothing: no new detail
fetch, no new detail write, no new ledger entry. -/
theorem ledger_add_and_detail_pipeline_idempotent :
    (∀ (writeOk : Bool) (s : St) (k : StatKind) (i : String), i ∈ s.mem k →
        set_stat_f writeOk s k i = Except.ok s
        ∧ set_stat_t writeOk s k i = Except.ok s
        ∧ set_stat s k i = s)
    ∧ (∀ (env : Env) (s : St) (id : String) (app : AppInfo),
        env.details id = some app →
        get_and_save_app_details env (get_and_save_app_details env s [id]) [id]
          = get_and_save_app_details env s [id]) := by
  constructor
  · intro writeOk s k i h
    refine ⟨?_, ?_, ?_⟩
    · unfold set_stat_f
      rw [if_pos h]
    · unfold set_stat_t
      rw [if_pos h]
    · unfold set_stat
      rw [if_pos h]
  · intro env s id app h
    exact gasad_known env _ [id] (by
      intro i hi
      rw [List.mem_singleton] at hi
      subst hi
      exact gasad_single_mem env s i app h)

/-- C9 witness: the theorem applied at a state that already knows a, and a
double pipeline run on the fresh id x. -/
theorem ledger_add_and_detail_pipeline_idempotent_witness :
    ("a" ∈ s9.mem StatKind.detailsChecked
      ∧ set_stat_f true s9 StatKind.detailsChecked "a" = Except.ok s9
      ∧ set_stat_t true s9 StatKind.detailsChecked "a" = Except.ok s9
      ∧ set_stat s9 StatKind.detailsChecked "a" = s9)
    ∧ (env9.details "x" = some ⟨"x", "d"⟩
      ∧ get_and_save_app_details env9
          (get_and_save_app_details env9 mkSt ["x"]) ["x"]
          = get_and_save_app_details env9 mkSt ["x"]) :=
  ⟨⟨by decide,
      (ledger_add_and_detail_pipeline_idempotent.1 true s9
        StatKind.detailsChecked "a" (by decide)).1,
      (ledger_add_and_detail_pipeline_idempotent.1 true s9
        StatKind.detailsChecked "a" (by decide)).2.1,
      (ledger_add_and_detail_pipeline_idempotent.1 true s9
        StatKind.detailsChecked "a" (by decide)).2.2⟩,
    ⟨rfl,
      ledger_add_and_detail_pipeline_idempotent.2 env9 mkSt "x" ⟨"x", "d"⟩ rfl⟩⟩

/-! ### Claim C10 -/

/-- C10: remove_stat is a no-op for every set name and id — it modifies
neither the in-memory sets nor any durable file; the only removal in the
threaded variant is the direct in-memory remove of the similar stage,
which leaves every durable file unchanged; and the threaded add never
removes an id from any in-memory set, in either outcome. -/
theorem remove_operations_never_touch_ledger (s : St) (k : StatKind)
    (i a : String) (writeOk : Bool) :
    remove_stat s k i = s
    ∧ (similars_pending_remove s a).files = s.files
    ∧ (∀ k', s.mem k' ⊆ (stateOf (set_stat_t writeOk s k i)).mem k') := by
  refine ⟨?_, rfl, ?_⟩
  · unfold remove_stat
    split <;> rfl
  · intro k' x hx
    unfold set_stat_t
    split
    · exact hx
    · dsimp only
      split
      · show x ∈ (Function.update s.mem k (i :: s.mem k)) k'
        by_cases hk : k' = k
        · subst hk
          rw [Function.update_same]
          exact List.mem_cons_of_mem _ hx
        · rw [Function.update_noteq hk]
          exact hx
      · show x ∈ (Function.update s.mem k (i :: s.mem k)) k'
        by_cases hk : k' = k
        · subst hk
          rw [Function.update_same]
          exact List.mem_cons_of_mem _ hx
        · rw [Function.update_noteq hk]
          exact hx

end Scraper
